import Mathlib

/-!
# Email provider manager (`management/email.go`)

A shallow embedding of the `Email` / `EmailCredentials` data-transfer objects and of
the four `EmailManager` operations `Create`, `Read`, `Update`, `Delete`.

Conventions of the embedding:

* a Go pointer field `*T` is an `Option T` (`none` is the nil pointer);
* the `Management` client is declared outside `email.go`; its six methods used here
  (`uri`, `q`, `post`, `get`, `patch`, `delete`) are taken as parameters, bundled in
  the structure `Management`;
* the HTTP verbs act on the outside world, so they are state-passing functions over a
  world type `σ`; Go's `error` result is an `Option ε` (`none` is the nil error);
* `get` decodes into a target that the caller owns: it receives the target's content
  and returns the content it leaves there.
-/

namespace management

/-! ## JSON values -/

/-- JSON values: what a request body is made of, and what a `Settings` entry
(`interface{}` in Go) encodes to. -/
inductive JSON where
  | null
  | bool (b : Bool)
  | num (n : Int)
  | str (s : String)
  | arr (items : List JSON)
  | obj (members : List (String × JSON))

/-- Members of a JSON object (no members for any other value). -/
def JSON.members : JSON → List (String × JSON)
  | .obj ms => ms
  | _ => []

/-- Keys of a JSON object, in order of appearance. -/
def JSON.keys (j : JSON) : List String :=
  j.members.map Prod.fst

/-! ## Data model (`email.go`, lines 3-42) -/

/-- The struct `EmailCredentials`: every field is a pointer, `none` when nil. -/
structure EmailCredentials where
  APIUser : Option String
  APIKey : Option String
  AccessKeyID : Option String
  SecretAccessKey : Option String
  Region : Option String
  SMTPHost : Option String
  SMTPPort : Option Int
  SMTPUser : Option String
  SMTPPass : Option String

/-- The struct `Email`. `Settings` is a Go map (`none` is the nil map); its entries
are listed in the order in which the encoder visits them. -/
structure Email where
  Name : Option String
  Enabled : Option Bool
  DefaultFromAddress : Option String
  Credentials : Option EmailCredentials
  Settings : Option (List (String × JSON))

/-- Go's `new(Email)`: the zero value, every pointer nil and the map nil. -/
def Email.new : Email :=
  { Name := none, Enabled := none, DefaultFromAddress := none,
    Credentials := none, Settings := none }

/-- Go's zero value of `EmailCredentials`: every pointer nil. -/
def EmailCredentials.new : EmailCredentials :=
  { APIUser := none, APIKey := none, AccessKeyID := none, SecretAccessKey := none,
    Region := none, SMTPHost := none, SMTPPort := none, SMTPUser := none,
    SMTPPass := none }

/-! ## The transport (declared outside `email.go`, taken as a parameter) -/

/-- The methods of `*Management` that `email.go` calls. `σ` is the state of the
outside world, `ε` the type of non-nil errors, `ρ` the type `reqOption`.
A request body is a `*Email`, hence an `Option Email`. -/
structure Management (σ ε ρ : Type) where
  uri : List String → String
  q : List ρ → String
  post : String → Option Email → σ → Option ε × σ
  get : String → Email → σ → (Email × Option ε) × σ
  patch : String → Option Email → σ → Option ε × σ
  delete : String → σ → Option ε × σ

/-! ## The manager (`email.go`, lines 44-98) -/

/-- The struct `EmailManager`: it holds the transport it was built with. -/
structure EmailManager (σ ε ρ : Type) where
  m : Management σ ε ρ

/-- The constructor `NewEmailManager(m)`: `&EmailManager{m}`. -/
def NewEmailManager {σ ε ρ : Type} (m : Management σ ε ρ) : EmailManager σ ε ρ :=
  { m := m }

/-- The method `Create`: `return em.m.post(em.m.uri("emails", "provider"), e)`. -/
def EmailManager.Create {σ ε ρ : Type} (em : EmailManager σ ε ρ) (e : Option Email)
    (s : σ) : Option ε × σ :=
  em.m.post (em.m.uri ["emails", "provider"]) e s

/-- The method `Read`: allocate `e := new(Email)`, call
`em.m.get(em.m.uri("emails", "provider")+em.m.q(opts), e)`, return `e, err`.
The returned pointer is `some` of what `get` left in the target. -/
def EmailManager.Read {σ ε ρ : Type} (em : EmailManager σ ε ρ) (opts : List ρ)
    (s : σ) : (Option Email × Option ε) × σ :=
  let e := Email.new
  let r := em.m.get (em.m.uri ["emails", "provider"] ++ em.m.q opts) e s
  ((some r.1.1, r.1.2), r.2)

/-- The method `Update`: `return em.m.patch(em.m.uri("emails", "provider"), e)`. -/
def EmailManager.Update {σ ε ρ : Type} (em : EmailManager σ ε ρ) (e : Option Email)
    (s : σ) : Option ε × σ :=
  em.m.patch (em.m.uri ["emails", "provider"]) e s

/-- The method `Delete`: `return em.m.delete(em.m.uri("emails", "provider"))`. -/
def EmailManager.Delete {σ ε ρ : Type} (em : EmailManager σ ε ρ) (s : σ) : Option ε × σ :=
  em.m.delete (em.m.uri ["emails", "provider"]) s

/-! ## Observing the transport -/

/-- One call of an HTTP verb of the transport, with the arguments it received. -/
inductive Call where
  | post (uri : String) (body : Option Email)
  | get (uri : String) (target : Email)
  | patch (uri : String) (body : Option Email)
  | delete (uri : String)

/-- The URI a call was made to. -/
def Call.uri : Call → String
  | .post u _ => u
  | .get u _ => u
  | .patch u _ => u
  | .delete u => u

/-- The transport `m` with a call log next to its world state: every verb behaves as
in `m` and appends the call it received to the log. `uri` and `q` are unchanged. -/
def Management.logged {σ ε ρ : Type} (m : Management σ ε ρ) :
    Management (σ × List Call) ε ρ :=
  { uri := m.uri
    q := m.q
    post := fun u b s => ((m.post u b s.1).1, ((m.post u b s.1).2, s.2 ++ [Call.post u b]))
    get := fun u t s => ((m.get u t s.1).1, ((m.get u t s.1).2, s.2 ++ [Call.get u t]))
    patch := fun u b s => ((m.patch u b s.1).1, ((m.patch u b s.1).2, s.2 ++ [Call.patch u b]))
    delete := fun u s => ((m.delete u s.1).1, ((m.delete u s.1).2, s.2 ++ [Call.delete u])) }

/-- A client-side operation of the manager, with its arguments. -/
inductive Op (ρ : Type) where
  | create (e : Option Email)
  | read (opts : List ρ)
  | update (e : Option Email)
  | delete

/-- Perform one operation on the manager `em`, keeping only the world it leaves. -/
def Op.run {σ ε ρ : Type} (em : EmailManager σ ε ρ) (o : Op ρ) (s : σ) : σ :=
  match o with
  | .create e => (em.Create e s).2
  | .read opts => (em.Read opts s).2
  | .update e => (em.Update e s).2
  | .delete => (em.Delete s).2

/-- Perform a sequence of operations on `em`, one after the other. -/
def runOps {σ ε ρ : Type} (em : EmailManager σ ε ρ) (ops : List (Op ρ)) (s : σ) : σ :=
  ops.foldl (fun w o => o.run em w) s

/-- The one transport call expected of each operation: the verb, the URI and the
body or target. -/
def Op.call {σ ε ρ : Type} (m : Management σ ε ρ) : Op ρ → Call
  | .create e => Call.post (m.uri ["emails", "provider"]) e
  | .read opts => Call.get (m.uri ["emails", "provider"] ++ m.q opts) Email.new
  | .update e => Call.patch (m.uri ["emails", "provider"]) e
  | .delete => Call.delete (m.uri ["emails", "provider"])

/-! ## JSON encoding of the request body

`email.go` fixes the JSON key and the `omitempty` option of each field in its struct
tags; the encoder that reads the tags is called by the transport, outside this file. -/

/-- Modelled from the spec: the transport "serializes a struct to JSON", and the
encoder is not in `email.go`. This is the rule of Go's `encoding/json` for one struct
field tagged `json:"key,omitempty"`: the field is left out when its value is empty
(`none`: a nil pointer, a nil or empty map), and otherwise it contributes the single
member `key : value`, a pointer being encoded as the value it points to. -/
def omitempty (key : String) (v : Option JSON) : List (String × JSON) :=
  match v with
  | none => []
  | some j => [(key, j)]

/-- Modelled from the spec: the `Settings` map as the encoder sees it, which is not in
`email.go`: empty when the map is nil or has no entry, else the object of its
entries. -/
def settingsValue : Option (List (String × JSON)) → Option JSON
  | none => none
  | some [] => none
  | some (kv :: rest) => some (JSON.obj (kv :: rest))

/-- Modelled from the spec: the JSON encoding of an `EmailCredentials`, made by the
encoder outside `email.go`: the fields in declaration order, each under the key of its
struct tag (lines 25-41), all with `omitempty`. -/
def EmailCredentials.marshal (c : EmailCredentials) : JSON :=
  JSON.obj
    (omitempty "api_user" (c.APIUser.map JSON.str) ++
     omitempty "api_key" (c.APIKey.map JSON.str) ++
     omitempty "accessKeyId" (c.AccessKeyID.map JSON.str) ++
     omitempty "secretAccessKey" (c.SecretAccessKey.map JSON.str) ++
     omitempty "region" (c.Region.map JSON.str) ++
     omitempty "smtp_host" (c.SMTPHost.map JSON.str) ++
     omitempty "smtp_port" (c.SMTPPort.map JSON.num) ++
     omitempty "smtp_user" (c.SMTPUser.map JSON.str) ++
     omitempty "smtp_pass" (c.SMTPPass.map JSON.str))

/-- Modelled from the spec: the JSON encoding of an `Email`, made by the encoder
outside `email.go`: the fields in declaration order, each under the key of its struct
tag (lines 7-16), all with `omitempty`. -/
def Email.marshal (e : Email) : JSON :=
  JSON.obj
    (omitempty "name" (e.Name.map JSON.str) ++
     omitempty "enabled" (e.Enabled.map JSON.bool) ++
     omitempty "default_from_address" (e.DefaultFromAddress.map JSON.str) ++
     omitempty "credentials" (e.Credentials.map EmailCredentials.marshal) ++
     omitempty "settings" (settingsValue e.Settings))

/-- Modelled from the spec: the JSON body that the transport, which is not in
`email.go`, sends for a call: the encoding of the `Email` handed to `post` or `patch`
(`null` for a nil pointer); `get` and `delete` send no body. -/
def Call.body : Call → Option JSON
  | .post _ (some e) => some e.marshal
  | .post _ none => some JSON.null
  | .patch _ (some e) => some e.marshal
  | .patch _ none => some JSON.null
  | .get _ _ => none
  | .delete _ => none

/-! ## What the comments of `email.go` document -/

/-- The provider names listed in the comment on `Email.Name` (lines 5-6). -/
def providerNames : List String :=
  ["mandrill", "sendgrid", "sparkpost", "ses", "smtp"]

/-- The credential properties that the comment on `Create` (lines 57-64) says each
provider requires, by their JSON property names. -/
def requiredCredentials (name : String) : List String :=
  if name = "mandrill" then ["api_key"]
  else if name = "sendgrid" then ["api_key"]
  else if name = "sparkpost" then ["api_key"]
  else if name = "ses" then ["accessKeyId", "secretAccessKey", "region"]
  else if name = "smtp" then ["smtp_host", "smtp_port", "smtp_user", "smtp_pass"]
  else []

/-- Whether an `Email` meets what the comments document: `Name` is set to one of the
five provider names and `Credentials` has every field set that the comment on `Create`
requires for that provider. -/
def requirementsMet (e : Email) : Bool :=
  match e.Name, e.Credentials with
  | some n, some c =>
    if n = "mandrill" ∨ n = "sendgrid" ∨ n = "sparkpost" then c.APIKey.isSome
    else if n = "ses" then
      c.AccessKeyID.isSome && c.SecretAccessKey.isSome && c.Region.isSome
    else if n = "smtp" then
      c.SMTPHost.isSome && c.SMTPPort.isSome && c.SMTPUser.isSome && c.SMTPPass.isSome
    else false
  | _, _ => false

/-! ## Concrete transports and values used as test inputs -/

/-- A transport that accepts every request: each verb returns the nil error and
`get` leaves its target untouched. -/
def acceptAll : Management Unit String Unit :=
  { uri := fun segs => "/" ++ "/".intercalate segs
    q := fun _ => ""
    post := fun _ _ s => (none, s)
    get := fun _ t s => ((t, none), s)
    patch := fun _ _ s => (none, s)
    delete := fun _ s => (none, s) }

/-- A transport for which every verb fails with the same error; `get` leaves its
target untouched. -/
def failAll : Management Unit String Unit :=
  { uri := fun segs => "/" ++ "/".intercalate segs
    q := fun _ => ""
    post := fun _ _ s => (some "503", s)
    get := fun _ t s => ((t, some "503"), s)
    patch := fun _ _ s => (some "503", s)
    delete := fun _ s => (some "503", s) }

/-- A transport standing for a remote endpoint that enforces the documented
requirements: `post` fails on a body that does not meet them. -/
def validating : Management Unit String Unit :=
  { uri := fun segs => "/" ++ "/".intercalate segs
    q := fun _ => ""
    post := fun _ b s =>
      match b with
      | some e => if requirementsMet e then (none, s) else (some "400", s)
      | none => (some "400", s)
    get := fun _ t s => ((t, none), s)
    patch := fun _ _ s => (none, s)
    delete := fun _ s => (none, s) }

/-- An `Email` naming the provider `ses` with no credentials at all. -/
def sesWithoutCredentials : Email :=
  { Email.new with Name := some "ses" }

/-- An `Email` whose provider name is none of the documented five. -/
def unknownProvider : Email :=
  { Email.new with Name := some "pigeon", Credentials := some EmailCredentials.new }

/-- An `Email` for `ses` with the three documented credentials set. -/
def sesComplete : Email :=
  { Email.new with
    Name := some "ses"
    Credentials := some { EmailCredentials.new with
      AccessKeyID := some "AKIA", SecretAccessKey := some "secret", Region := some "eu-west-1" } }

/-- An `Email` with three pointer fields set to the zero value of their type. -/
def zeroValued : Email :=
  { Email.new with
    Name := some ""
    Enabled := some false
    Credentials := some { EmailCredentials.new with SMTPPort := some 0 } }

/-! ## The four operations delegate to the transport -/

section Delegation

variable {σ ε ρ : Type}

/-- C1: `Create(e)` on a manager built by `NewEmailManager(m)` is `m.post` on the URI
`m.uri("emails", "provider")` with `e` itself as the body: same error (nil exactly when
the transport returns nil) and same effect on the world. -/
theorem Create_eq_post (m : Management σ ε ρ) (e : Option Email) (s : σ) :
    (NewEmailManager m).m = m ∧
    (NewEmailManager m).Create e s = m.post (m.uri ["emails", "provider"]) e s ∧
    ((NewEmailManager m).Create e s).1 = (m.post (m.uri ["emails", "provider"]) e s).1 ∧
    ((NewEmailManager m.logged).Create e (s, [])).2.2 =
      [Call.post (m.uri ["emails", "provider"]) e] :=
  ⟨rfl, rfl, rfl, rfl⟩

/-- C2: `Read(opts...)` calls `m.get` on `m.uri("emails", "provider")` followed by
`m.q(opts)`, with a zero-valued `Email` as the target, and returns that target together
with exactly the error that `get` returned. -/
theorem Read_eq_get (m : Management σ ε ρ) (opts : List ρ) (s : σ) :
    (NewEmailManager m).Read opts s =
      ((some (m.get (m.uri ["emails", "provider"] ++ m.q opts) Email.new s).1.1,
        (m.get (m.uri ["emails", "provider"] ++ m.q opts) Email.new s).1.2),
       (m.get (m.uri ["emails", "provider"] ++ m.q opts) Email.new s).2) ∧
    ((NewEmailManager m.logged).Read opts (s, [])).2.2 =
      [Call.get (m.uri ["emails", "provider"] ++ m.q opts) Email.new] ∧
    (Email.new.Name = none ∧ Email.new.Enabled = none ∧
      Email.new.DefaultFromAddress = none ∧ Email.new.Credentials = none ∧
      Email.new.Settings = none) :=
  ⟨rfl, rfl, rfl, rfl, rfl, rfl, rfl⟩

/-- C3: `Update(e)` is `m.patch` on `m.uri("emails", "provider")` with `e` as the
body, and the URI of that call is the URI of the call that `Create` makes. -/
theorem Update_eq_patch (m : Management σ ε ρ) (e : Option Email) (s : σ) :
    (NewEmailManager m).Update e s = m.patch (m.uri ["emails", "provider"]) e s ∧
    ((NewEmailManager m.logged).Update e (s, [])).2.2 =
      [Call.patch (m.uri ["emails", "provider"]) e] ∧
    ((NewEmailManager m.logged).Update e (s, [])).2.2.map Call.uri =
      ((NewEmailManager m.logged).Create e (s, [])).2.2.map Call.uri :=
  ⟨rfl, rfl, rfl⟩

/-- C4: `Delete()` is `m.delete` on `m.uri("emails", "provider")`: a call that
carries a URI and no body, to the URI that `Create` and `Update` use. -/
theorem Delete_eq_delete (m : Management σ ε ρ) (e : Option Email) (s : σ) :
    (NewEmailManager m).Delete s = m.delete (m.uri ["emails", "provider"]) s ∧
    ((NewEmailManager m.logged).Delete (s, [])).2.2 =
      [Call.delete (m.uri ["emails", "provider"])] ∧
    ((NewEmailManager m.logged).Delete (s, [])).2.2.map Call.uri =
      ((NewEmailManager m.logged).Create e (s, [])).2.2.map Call.uri ∧
    ((NewEmailManager m.logged).Delete (s, [])).2.2.map Call.uri =
      ((NewEmailManager m.logged).Update e (s, [])).2.2.map Call.uri :=
  ⟨rfl, rfl, rfl, rfl⟩

end Delegation

/-! ## One transport call per operation -/

section CallCount

variable {σ ε ρ : Type}

/-- Each operation, run against the logging transport, appends its one expected call
to the log. -/
theorem op_run_logged (m : Management σ ε ρ) (o : Op ρ) (w : σ × List Call) :
    (o.run (NewEmailManager m.logged) w).2 = w.2 ++ [o.call m] := by
  cases o <;> rfl

/-- A sequence of operations appends the expected call of each, in order. -/
theorem runOps_logged (m : Management σ ε ρ) (ops : List (Op ρ)) (w : σ × List Call) :
    (runOps (NewEmailManager m.logged) ops w).2 = w.2 ++ ops.map (Op.call m) := by
  induction ops generalizing w with
  | nil => simp [runOps]
  | cons o rest ih =>
    have step : runOps (NewEmailManager m.logged) (o :: rest) w =
        runOps (NewEmailManager m.logged) rest (o.run (NewEmailManager m.logged) w) := rfl
    rw [step, ih, op_run_logged]
    simp

/-- C8: each of `Create`, `Read`, `Update`, `Delete` calls the transport exactly once,
whatever the transport returns and whatever was called before: from any world and any
log of earlier calls, the operation appends exactly one call; two `Read`s in a row make
two `get` calls; and any sequence of operations makes as many calls as it has
operations. -/
theorem one_transport_call_per_operation (m : Management σ ε ρ) (e : Option Email)
    (opts opts2 : List ρ) (ops : List (Op ρ)) (s : σ) (log : List Call) :
    ((NewEmailManager m.logged).Create e (s, log)).2.2 =
      log ++ [Call.post (m.uri ["emails", "provider"]) e] ∧
    ((NewEmailManager m.logged).Read opts (s, log)).2.2 =
      log ++ [Call.get (m.uri ["emails", "provider"] ++ m.q opts) Email.new] ∧
    ((NewEmailManager m.logged).Update e (s, log)).2.2 =
      log ++ [Call.patch (m.uri ["emails", "provider"]) e] ∧
    ((NewEmailManager m.logged).Delete (s, log)).2.2 =
      log ++ [Call.delete (m.uri ["emails", "provider"])] ∧
    ((NewEmailManager m.logged).Read opts2
        ((NewEmailManager m.logged).Read opts (s, log)).2).2.2 =
      log ++ [Call.get (m.uri ["emails", "provider"] ++ m.q opts) Email.new,
              Call.get (m.uri ["emails", "provider"] ++ m.q opts2) Email.new] ∧
    (runOps (NewEmailManager m.logged) ops (s, log)).2 = log ++ ops.map (Op.call m) ∧
    (runOps (NewEmailManager m.logged) ops (s, log)).2.length = log.length + ops.length := by
  refine ⟨rfl, rfl, rfl, rfl, ?_, runOps_logged m ops (s, log), ?_⟩
  · exact List.append_assoc log [_] [_]
  · rw [runOps_logged]
    simp

/-- The logging transport returns what the transport itself returns: logging changes
neither the results nor the world. -/
theorem logged_faithful (m : Management σ ε ρ) (e : Option Email) (opts : List ρ)
    (s : σ) (log : List Call) :
    ((NewEmailManager m.logged).Create e (s, log)).1 = ((NewEmailManager m).Create e s).1 ∧
    ((NewEmailManager m.logged).Create e (s, log)).2.1 = ((NewEmailManager m).Create e s).2 ∧
    ((NewEmailManager m.logged).Read opts (s, log)).1 = ((NewEmailManager m).Read opts s).1 ∧
    ((NewEmailManager m.logged).Read opts (s, log)).2.1 = ((NewEmailManager m).Read opts s).2 ∧
    ((NewEmailManager m.logged).Update e (s, log)).1 = ((NewEmailManager m).Update e s).1 ∧
    ((NewEmailManager m.logged).Update e (s, log)).2.1 = ((NewEmailManager m).Update e s).2 ∧
    ((NewEmailManager m.logged).Delete (s, log)).1 = ((NewEmailManager m).Delete s).1 ∧
    ((NewEmailManager m.logged).Delete (s, log)).2.1 = ((NewEmailManager m).Delete s).2 :=
  ⟨rfl, rfl, rfl, rfl, rfl, rfl, rfl, rfl⟩

end CallCount

/-! ## What `Read` returns -/

section ReadResult

variable {σ ε ρ : Type}

/-- C9: `Read` returns a non-nil `*Email` whatever error it returns, and when `get`
leaves its target as it received it (as a `get` that fails before decoding does), the
returned `Email` has every field unset. -/
theorem Read_returns_non_nil (m : Management σ ε ρ) (opts : List ρ) (s : σ) :
    ((NewEmailManager m).Read opts s).1.1.isSome = true ∧
    ((m.get (m.uri ["emails", "provider"] ++ m.q opts) Email.new s).1.1 = Email.new →
      ∃ r : Email, ((NewEmailManager m).Read opts s).1.1 = some r ∧
        r.Name = none ∧ r.Enabled = none ∧ r.DefaultFromAddress = none ∧
        r.Credentials = none ∧ r.Settings = none) := by
  refine ⟨rfl, fun h => ⟨Email.new, ?_, rfl, rfl, rfl, rfl, rfl⟩⟩
  show some (m.get (m.uri ["emails", "provider"] ++ m.q opts) Email.new s).1.1 = _
  rw [h]

/-- C9 at a concrete input: with a transport whose `get` fails without writing, `Read`
returns a non-nil error, a non-nil `Email`, and every field of it unset. -/
theorem Read_returns_non_nil_witness :
    ((NewEmailManager failAll).Read [] ()).1.2 = some "503" ∧
    ((NewEmailManager failAll).Read [] ()).1.1.isSome = true ∧
    ∃ r : Email, ((NewEmailManager failAll).Read [] ()).1.1 = some r ∧
      r.Name = none ∧ r.Enabled = none ∧ r.DefaultFromAddress = none ∧
      r.Credentials = none ∧ r.Settings = none :=
  ⟨rfl, (Read_returns_non_nil failAll [] ()).1, (Read_returns_non_nil failAll [] ()).2 rfl⟩

end ReadResult

/-! ## The JSON body -/

section Encoding

/-- A member of the contribution of one field: the field is set and the member is the
field's key with the field's value. -/
theorem mem_omitempty (key : String) (v : Option JSON) (k : String) (j : JSON) :
    (k, j) ∈ omitempty key v ↔ k = key ∧ v = some j := by
  cases v with
  | none => simp [omitempty]
  | some x =>
    simp only [omitempty, List.mem_singleton, Prod.mk.injEq, Option.some.injEq]
    constructor
    · rintro ⟨h1, h2⟩
      exact ⟨h1, h2.symm⟩
    · rintro ⟨h1, h2⟩
      exact ⟨h1, h2.symm⟩

/-- A key of the contribution of one field: the field's key, and the field is set. -/
theorem mem_keys_omitempty (key : String) (v : Option JSON) (k : String) :
    k ∈ (omitempty key v).map Prod.fst ↔ k = key ∧ v.isSome = true := by
  cases v <;> simp [omitempty]

/-- The keys that one field contributes are a sublist of its single key. -/
theorem keys_omitempty_sublist (key : String) (v : Option JSON) :
    List.Sublist ((omitempty key v).map Prod.fst) [key] := by
  cases v <;> simp [omitempty]

/-- The keys of an encoded `Email` are a sublist of the five tagged keys, in order. -/
theorem email_keys_sublist (e : Email) :
    List.Sublist e.marshal.keys
      ["name", "enabled", "default_from_address", "credentials", "settings"] := by
  simp only [Email.marshal, JSON.keys, JSON.members, List.map_append]
  exact (((keys_omitempty_sublist _ _).append (keys_omitempty_sublist _ _)).append
    (keys_omitempty_sublist _ _) |>.append (keys_omitempty_sublist _ _)).append
    (keys_omitempty_sublist _ _)

/-- The keys of an encoded `EmailCredentials` are a sublist of the nine tagged keys,
in order. -/
theorem credentials_keys_sublist (c : EmailCredentials) :
    List.Sublist c.marshal.keys
      ["api_user", "api_key", "accessKeyId", "secretAccessKey", "region",
       "smtp_host", "smtp_port", "smtp_user", "smtp_pass"] := by
  simp only [EmailCredentials.marshal, JSON.keys, JSON.members, List.map_append]
  exact ((((((((keys_omitempty_sublist _ _).append (keys_omitempty_sublist _ _)).append
    (keys_omitempty_sublist _ _)).append (keys_omitempty_sublist _ _)).append
    (keys_omitempty_sublist _ _)).append (keys_omitempty_sublist _ _)).append
    (keys_omitempty_sublist _ _)).append (keys_omitempty_sublist _ _)).append
    (keys_omitempty_sublist _ _)

/-- Membership in the encoding of an `Email`, field by field. -/
theorem mem_email_marshal (e : Email) (k : String) (j : JSON) :
    (k, j) ∈ e.marshal.members ↔
      (k = "name" ∧ e.Name.map JSON.str = some j) ∨
      (k = "enabled" ∧ e.Enabled.map JSON.bool = some j) ∨
      (k = "default_from_address" ∧ e.DefaultFromAddress.map JSON.str = some j) ∨
      (k = "credentials" ∧ e.Credentials.map EmailCredentials.marshal = some j) ∨
      (k = "settings" ∧ settingsValue e.Settings = some j) := by
  simp only [Email.marshal, JSON.members, List.mem_append, mem_omitempty, or_assoc]

/-- Membership in the encoding of an `EmailCredentials`, field by field. -/
theorem mem_credentials_marshal (c : EmailCredentials) (k : String) (j : JSON) :
    (k, j) ∈ c.marshal.members ↔
      (k = "api_user" ∧ c.APIUser.map JSON.str = some j) ∨
      (k = "api_key" ∧ c.APIKey.map JSON.str = some j) ∨
      (k = "accessKeyId" ∧ c.AccessKeyID.map JSON.str = some j) ∨
      (k = "secretAccessKey" ∧ c.SecretAccessKey.map JSON.str = some j) ∨
      (k = "region" ∧ c.Region.map JSON.str = some j) ∨
      (k = "smtp_host" ∧ c.SMTPHost.map JSON.str = some j) ∨
      (k = "smtp_port" ∧ c.SMTPPort.map JSON.num = some j) ∨
      (k = "smtp_user" ∧ c.SMTPUser.map JSON.str = some j) ∨
      (k = "smtp_pass" ∧ c.SMTPPass.map JSON.str = some j) := by
  simp only [EmailCredentials.marshal, JSON.members, List.mem_append, mem_omitempty, or_assoc]

/-- Mapping over a pointer keeps it nil or non-nil. -/
theorem isSome_map_eq {α β : Type} (f : α → β) (o : Option α) :
    (o.map f).isSome = o.isSome := by
  cases o <;> rfl

/-- The keys of the encoding of an `Email`, field by field. -/
theorem mem_email_keys (e : Email) (k : String) :
    k ∈ e.marshal.keys ↔
      (k = "name" ∧ e.Name.isSome = true) ∨
      (k = "enabled" ∧ e.Enabled.isSome = true) ∨
      (k = "default_from_address" ∧ e.DefaultFromAddress.isSome = true) ∨
      (k = "credentials" ∧ e.Credentials.isSome = true) ∨
      (k = "settings" ∧ (settingsValue e.Settings).isSome = true) := by
  simp only [Email.marshal, JSON.keys, JSON.members, List.map_append, List.mem_append,
    mem_keys_omitempty, or_assoc, isSome_map_eq]

/-- The keys of the encoding of an `EmailCredentials`, field by field. -/
theorem mem_credentials_keys (c : EmailCredentials) (k : String) :
    k ∈ c.marshal.keys ↔
      (k = "api_user" ∧ c.APIUser.isSome = true) ∨
      (k = "api_key" ∧ c.APIKey.isSome = true) ∨
      (k = "accessKeyId" ∧ c.AccessKeyID.isSome = true) ∨
      (k = "secretAccessKey" ∧ c.SecretAccessKey.isSome = true) ∨
      (k = "region" ∧ c.Region.isSome = true) ∨
      (k = "smtp_host" ∧ c.SMTPHost.isSome = true) ∨
      (k = "smtp_port" ∧ c.SMTPPort.isSome = true) ∨
      (k = "smtp_user" ∧ c.SMTPUser.isSome = true) ∨
      (k = "smtp_pass" ∧ c.SMTPPass.isSome = true) := by
  simp only [EmailCredentials.marshal, JSON.keys, JSON.members, List.map_append,
    List.mem_append, mem_keys_omitempty, or_assoc, isSome_map_eq]

/-- What `requirementsMet` says, provider by provider, in terms of the fields. -/
theorem requirementsMet_spelled (e : Email) (h : requirementsMet e = true) :
    (∃ n, e.Name = some n ∧ n ∈ providerNames) ∧
    (e.Name = some "ses" → ∃ c, e.Credentials = some c ∧
      c.AccessKeyID.isSome = true ∧ c.SecretAccessKey.isSome = true ∧
      c.Region.isSome = true) ∧
    (e.Name = some "smtp" → ∃ c, e.Credentials = some c ∧
      c.SMTPHost.isSome = true ∧ c.SMTPPort.isSome = true ∧
      c.SMTPUser.isSome = true ∧ c.SMTPPass.isSome = true) ∧
    (e.Name = some "mandrill" ∨ e.Name = some "sendgrid" ∨ e.Name = some "sparkpost" →
      ∃ c, e.Credentials = some c ∧ c.APIKey.isSome = true) := by
  obtain ⟨name, enabled, addr, creds, settings⟩ := e
  cases name with
  | none => simp [requirementsMet] at h
  | some n =>
    cases creds with
    | none => simp [requirementsMet] at h
    | some c =>
      simp only [requirementsMet] at h
      simp only [Option.some.injEq, providerNames]
      split_ifs at h with h1 h2 h3
      · refine ⟨?_, ?_, ?_, ?_⟩
        · rcases h1 with h1 | h1 | h1 <;> simp [h1]
        · intro hn; rcases h1 with h1 | h1 | h1 <;> rw [h1] at hn <;> exact absurd hn (by decide)
        · intro hn; rcases h1 with h1 | h1 | h1 <;> rw [h1] at hn <;> exact absurd hn (by decide)
        · intro _; exact ⟨c, rfl, h⟩
      · subst h2
        simp only [Bool.and_eq_true] at h
        refine ⟨by simp, fun _ => ⟨c, rfl, h.1.1, h.1.2, h.2⟩, fun hn => absurd hn (by decide),
          fun hn => ?_⟩
        rcases hn with hn | hn | hn <;> exact absurd hn (by decide)
      · subst h3
        simp only [Bool.and_eq_true] at h
        refine ⟨by simp, fun hn => absurd hn (by decide),
          fun _ => ⟨c, rfl, h.1.1.1, h.1.1.2, h.1.2, h.2⟩, fun hn => ?_⟩
        rcases hn with hn | hn | hn <;> exact absurd hn (by decide)

end Encoding

/-! ## `Create` and the documented requirements -/

section Requirements

variable {σ ε ρ : Type}

/-- C5, as stated, fails: against a transport that accepts every request, `Create`
succeeds for an `Email` named `ses` that has no credentials, and for an `Email` whose
name is none of the five documented provider names. -/
theorem Create_checks_nothing :
    ((NewEmailManager acceptAll).Create (some sesWithoutCredentials) ()).1 = none ∧
    sesWithoutCredentials.Name = some "ses" ∧
    sesWithoutCredentials.Credentials = none ∧
    ((NewEmailManager acceptAll).Create (some unknownProvider) ()).1 = none ∧
    unknownProvider.Name = some "pigeon" ∧
    "pigeon" ∉ providerNames := by
  refine ⟨rfl, rfl, rfl, rfl, rfl, ?_⟩
  decide

/-- C5, amended: `Create(e)` succeeds exactly when the transport's `post` of `e`
succeeds, so the documented requirements hold of a created `Email` when the transport
(the remote endpoint behind it) rejects every body that does not meet them: then
`Create(e)` succeeds only if `Name` is one of the five provider names, `ses` comes with
`AccessKeyID`, `SecretAccessKey` and `Region` set, `smtp` with `SMTPHost`, `SMTPPort`,
`SMTPUser` and `SMTPPass` set, and `mandrill`, `sendgrid`, `sparkpost` with `APIKey`
set. -/
theorem Create_succeeds_iff_post_succeeds (m : Management σ ε ρ) (e : Email) (s : σ) :
    (((NewEmailManager m).Create (some e) s).1 = none ↔
      (m.post (m.uri ["emails", "provider"]) (some e) s).1 = none) ∧
    ((∀ (u : String) (b : Email) (w : σ),
        (m.post u (some b) w).1 = none → requirementsMet b = true) →
      ((NewEmailManager m).Create (some e) s).1 = none →
      (∃ n, e.Name = some n ∧ n ∈ providerNames) ∧
      (e.Name = some "ses" → ∃ c, e.Credentials = some c ∧
        c.AccessKeyID.isSome = true ∧ c.SecretAccessKey.isSome = true ∧
        c.Region.isSome = true) ∧
      (e.Name = some "smtp" → ∃ c, e.Credentials = some c ∧
        c.SMTPHost.isSome = true ∧ c.SMTPPort.isSome = true ∧
        c.SMTPUser.isSome = true ∧ c.SMTPPass.isSome = true) ∧
      (e.Name = some "mandrill" ∨ e.Name = some "sendgrid" ∨ e.Name = some "sparkpost" →
        ∃ c, e.Credentials = some c ∧ c.APIKey.isSome = true)) :=
  ⟨Iff.rfl, fun enforce ok =>
    requirementsMet_spelled e (enforce (m.uri ["emails", "provider"]) e s ok)⟩

/-- The transport `validating` accepts a `post` only of a body that meets the
documented requirements. -/
theorem validating_enforces (u : String) (b : Email) (w : Unit)
    (h : (validating.post u (some b) w).1 = none) : requirementsMet b = true := by
  cases hb : requirementsMet b with
  | true => rfl
  | false =>
    have : (validating.post u (some b) w).1 = some "400" := by
      simp [validating, hb]
    rw [this] at h
    exact absurd h (by simp)

/-- C5, amended, at a concrete input: against the validating transport, `Create` of a
complete `ses` configuration succeeds and the configuration has the three credentials
that `ses` requires. -/
theorem Create_succeeds_iff_post_succeeds_witness :
    ((NewEmailManager validating).Create (some sesComplete) ()).1 = none ∧
    ∃ c, sesComplete.Credentials = some c ∧ c.AccessKeyID.isSome = true ∧
      c.SecretAccessKey.isSome = true ∧ c.Region.isSome = true :=
  have created : ((NewEmailManager validating).Create (some sesComplete) ()).1 = none := by
    decide
  ⟨created,
    ((Create_succeeds_iff_post_succeeds validating sesComplete ()).2
      validating_enforces created).2.1 rfl⟩

end Requirements

/-! ## Keys and values of the JSON body -/

section Body

variable {σ ε ρ : Type}

/-- C6: an encoded `Email` has no key other than `name`, `enabled`,
`default_from_address`, `credentials`, `settings`, an encoded `EmailCredentials` none
other than the nine keys of its tags, no key occurs twice, every set field appears
under its key with its own value, and the property names that the comment on `Create`
requires of a provider are keys of `EmailCredentials`. -/
theorem marshal_uses_exactly_the_tagged_keys (e : Email) (c : EmailCredentials) :
    (∀ k ∈ e.marshal.keys,
      k ∈ ["name", "enabled", "default_from_address", "credentials", "settings"]) ∧
    e.marshal.keys.Nodup ∧
    (∀ k ∈ c.marshal.keys,
      k ∈ ["api_user", "api_key", "accessKeyId", "secretAccessKey", "region",
           "smtp_host", "smtp_port", "smtp_user", "smtp_pass"]) ∧
    c.marshal.keys.Nodup ∧
    ((∀ v, e.Name = some v → ("name", JSON.str v) ∈ e.marshal.members) ∧
     (∀ v, e.Enabled = some v → ("enabled", JSON.bool v) ∈ e.marshal.members) ∧
     (∀ v, e.DefaultFromAddress = some v →
        ("default_from_address", JSON.str v) ∈ e.marshal.members) ∧
     (∀ v, e.Credentials = some v → ("credentials", v.marshal) ∈ e.marshal.members) ∧
     (∀ kv rest, e.Settings = some (kv :: rest) →
        ("settings", JSON.obj (kv :: rest)) ∈ e.marshal.members)) ∧
    ((∀ v, c.APIUser = some v → ("api_user", JSON.str v) ∈ c.marshal.members) ∧
     (∀ v, c.APIKey = some v → ("api_key", JSON.str v) ∈ c.marshal.members) ∧
     (∀ v, c.AccessKeyID = some v → ("accessKeyId", JSON.str v) ∈ c.marshal.members) ∧
     (∀ v, c.SecretAccessKey = some v →
        ("secretAccessKey", JSON.str v) ∈ c.marshal.members) ∧
     (∀ v, c.Region = some v → ("region", JSON.str v) ∈ c.marshal.members) ∧
     (∀ v, c.SMTPHost = some v → ("smtp_host", JSON.str v) ∈ c.marshal.members) ∧
     (∀ v, c.SMTPPort = some v → ("smtp_port", JSON.num v) ∈ c.marshal.members) ∧
     (∀ v, c.SMTPUser = some v → ("smtp_user", JSON.str v) ∈ c.marshal.members) ∧
     (∀ v, c.SMTPPass = some v → ("smtp_pass", JSON.str v) ∈ c.marshal.members)) ∧
    (∀ n ∈ providerNames, requiredCredentials n ≠ [] ∧
      ∀ k ∈ requiredCredentials n,
        k ∈ ["api_user", "api_key", "accessKeyId", "secretAccessKey", "region",
             "smtp_host", "smtp_port", "smtp_user", "smtp_pass"]) := by
  refine ⟨fun k hk => (email_keys_sublist e).subset hk,
    (email_keys_sublist e).nodup (by decide),
    fun k hk => (credentials_keys_sublist c).subset hk,
    (credentials_keys_sublist c).nodup (by decide), ?_, ?_, ?_⟩
  · refine ⟨?_, ?_, ?_, ?_, ?_⟩ <;> intros <;>
      simp_all [mem_email_marshal, settingsValue]
  · refine ⟨?_, ?_, ?_, ?_, ?_, ?_, ?_, ?_, ?_⟩ <;> intros <;>
      simp_all [mem_credentials_marshal]
  · decide

/-- C6 at a concrete input: the complete `ses` configuration is encoded with its name
under `name`, and the access key of its credentials under `accessKeyId`. -/
theorem marshal_uses_exactly_the_tagged_keys_witness :
    ("name", JSON.str "ses") ∈ sesComplete.marshal.members ∧
    ("accessKeyId", JSON.str "AKIA") ∈
      ({ EmailCredentials.new with
          AccessKeyID := some "AKIA", SecretAccessKey := some "secret",
          Region := some "eu-west-1" } : EmailCredentials).marshal.members ∧
    "accessKeyId" ∈ ["api_user", "api_key", "accessKeyId", "secretAccessKey", "region",
      "smtp_host", "smtp_port", "smtp_user", "smtp_pass"] := by
  obtain ⟨_, _, _, _, hEmail, hCreds, hDoc⟩ :=
    marshal_uses_exactly_the_tagged_keys sesComplete
      { EmailCredentials.new with
        AccessKeyID := some "AKIA", SecretAccessKey := some "secret",
        Region := some "eu-west-1" }
  exact ⟨hEmail.1 "ses" rfl, hCreds.2.2.1 "AKIA" rfl,
    (hDoc "ses" (by decide)).2 "accessKeyId" (by decide)⟩

/-- C7: a field of an `Email` or of its credentials that is unset (nil pointer, nil or
empty `Settings` map) has no key in the encoding; an `Email` with every field unset is
encoded as the empty object; the body that `Create` and `Update` hand to the transport
is the encoding of `e`, so every key sent is the key of a field that is set. -/
theorem unset_fields_are_omitted (m : Management σ ε ρ) (s : σ) (e : Email)
    (c : EmailCredentials) :
    ((e.Name = none → "name" ∉ e.marshal.keys) ∧
     (e.Enabled = none → "enabled" ∉ e.marshal.keys) ∧
     (e.DefaultFromAddress = none → "default_from_address" ∉ e.marshal.keys) ∧
     (e.Credentials = none → "credentials" ∉ e.marshal.keys) ∧
     (e.Settings = none ∨ e.Settings = some [] → "settings" ∉ e.marshal.keys)) ∧
    ((c.APIUser = none → "api_user" ∉ c.marshal.keys) ∧
     (c.APIKey = none → "api_key" ∉ c.marshal.keys) ∧
     (c.AccessKeyID = none → "accessKeyId" ∉ c.marshal.keys) ∧
     (c.SecretAccessKey = none → "secretAccessKey" ∉ c.marshal.keys) ∧
     (c.Region = none → "region" ∉ c.marshal.keys) ∧
     (c.SMTPHost = none → "smtp_host" ∉ c.marshal.keys) ∧
     (c.SMTPPort = none → "smtp_port" ∉ c.marshal.keys) ∧
     (c.SMTPUser = none → "smtp_user" ∉ c.marshal.keys) ∧
     (c.SMTPPass = none → "smtp_pass" ∉ c.marshal.keys)) ∧
    (e.Name = none → e.Enabled = none → e.DefaultFromAddress = none →
      e.Credentials = none → (e.Settings = none ∨ e.Settings = some []) →
      e.marshal = JSON.obj []) ∧
    Email.new.marshal = JSON.obj [] ∧
    ((NewEmailManager m.logged).Create (some e) (s, [])).2.2.map Call.body =
      [some e.marshal] ∧
    ((NewEmailManager m.logged).Update (some e) (s, [])).2.2.map Call.body =
      [some e.marshal] ∧
    (∀ k ∈ e.marshal.keys,
      (k = "name" ∧ e.Name ≠ none) ∨ (k = "enabled" ∧ e.Enabled ≠ none) ∨
      (k = "default_from_address" ∧ e.DefaultFromAddress ≠ none) ∨
      (k = "credentials" ∧ e.Credentials ≠ none) ∨
      (k = "settings" ∧ e.Settings ≠ none ∧ e.Settings ≠ some [])) := by
  refine ⟨?_, ?_, ?_, rfl, rfl, rfl, ?_⟩
  · refine ⟨?_, ?_, ?_, ?_, ?_⟩ <;> intro h <;> rw [mem_email_keys]
    · simp [h]
    · simp [h]
    · simp [h]
    · simp [h]
    · rcases h with h | h <;> simp [h, settingsValue]
  · refine ⟨?_, ?_, ?_, ?_, ?_, ?_, ?_, ?_, ?_⟩ <;> intro h <;>
      rw [mem_credentials_keys] <;> simp [h]
  · intro h1 h2 h3 h4 h5
    rcases h5 with h5 | h5 <;>
      simp [Email.marshal, h1, h2, h3, h4, h5, omitempty, settingsValue]
  · intro k hk
    rw [mem_email_keys] at hk
    rcases hk with ⟨hk, hs⟩ | ⟨hk, hs⟩ | ⟨hk, hs⟩ | ⟨hk, hs⟩ | ⟨hk, hs⟩
    · exact Or.inl ⟨hk, fun hn => by simp [hn] at hs⟩
    · exact Or.inr (Or.inl ⟨hk, fun hn => by simp [hn] at hs⟩)
    · exact Or.inr (Or.inr (Or.inl ⟨hk, fun hn => by simp [hn] at hs⟩))
    · exact Or.inr (Or.inr (Or.inr (Or.inl ⟨hk, fun hn => by simp [hn] at hs⟩)))
    · exact Or.inr (Or.inr (Or.inr (Or.inr ⟨hk, fun hn => by simp [hn, settingsValue] at hs,
        fun hn => by simp [hn, settingsValue] at hs⟩)))

/-- C7 at a concrete input: the `ses` configuration without credentials is encoded
without the key `credentials`, and the zero `Email` as the empty object. -/
theorem unset_fields_are_omitted_witness :
    "credentials" ∉ sesWithoutCredentials.marshal.keys ∧
    "settings" ∉ sesWithoutCredentials.marshal.keys ∧
    "api_key" ∉ EmailCredentials.new.marshal.keys ∧
    Email.new.marshal = JSON.obj [] ∧
    sesWithoutCredentials.marshal = JSON.obj [("name", JSON.str "ses")] := by
  obtain ⟨hEmail, hCreds, hAll, _, _, _, _⟩ :=
    unset_fields_are_omitted acceptAll () sesWithoutCredentials EmailCredentials.new
  obtain ⟨_, _, hZero, _⟩ :=
    unset_fields_are_omitted acceptAll () Email.new EmailCredentials.new
  exact ⟨hEmail.2.2.2.1 rfl, hEmail.2.2.2.2 (Or.inl rfl), hCreds.2.1 rfl,
    hZero rfl rfl rfl rfl (Or.inl rfl), rfl⟩

/-- C10: a pointer field set to the zero value of its type is encoded, not omitted:
`Enabled` pointing to `false` gives the member `enabled : false`, `Name` pointing to
the empty string gives `name : ""`, `SMTPPort` pointing to `0` gives `smtp_port : 0`
inside the member `credentials`; and the body with the field set to its zero value
differs from the body with the field unset. -/
theorem zero_values_are_serialized (e : Email) (c : EmailCredentials) :
    (e.Enabled = some false → ("enabled", JSON.bool false) ∈ e.marshal.members) ∧
    (e.Name = some "" → ("name", JSON.str "") ∈ e.marshal.members) ∧
    (c.SMTPPort = some 0 → ("smtp_port", JSON.num 0) ∈ c.marshal.members) ∧
    (e.Credentials = some c → c.SMTPPort = some 0 →
      ∃ j, ("credentials", j) ∈ e.marshal.members ∧ ("smtp_port", JSON.num 0) ∈ j.members) ∧
    ({ e with Enabled := some false } : Email).marshal ≠
      ({ e with Enabled := none } : Email).marshal ∧
    ({ e with Name := some "" } : Email).marshal ≠
      ({ e with Name := none } : Email).marshal ∧
    ({ c with SMTPPort := some 0 } : EmailCredentials).marshal ≠
      ({ c with SMTPPort := none } : EmailCredentials).marshal := by
  refine ⟨?_, ?_, ?_, ?_, ?_, ?_, ?_⟩
  · intro h; simp [mem_email_marshal, h]
  · intro h; simp [mem_email_marshal, h]
  · intro h; simp [mem_credentials_marshal, h]
  · intro h1 h2
    exact ⟨c.marshal, by simp [mem_email_marshal, h1], by simp [mem_credentials_marshal, h2]⟩
  · intro h
    have hk : "enabled" ∈ ({ e with Enabled := none } : Email).marshal.keys := by
      rw [← h, mem_email_keys]; simp
    rw [mem_email_keys] at hk
    simp at hk
  · intro h
    have hk : "name" ∈ ({ e with Name := none } : Email).marshal.keys := by
      rw [← h, mem_email_keys]; simp
    rw [mem_email_keys] at hk
    simp at hk
  · intro h
    have hk : "smtp_port" ∈ ({ c with SMTPPort := none } : EmailCredentials).marshal.keys := by
      rw [← h, mem_credentials_keys]; simp
    rw [mem_credentials_keys] at hk
    simp at hk

/-- C10 at a concrete input: an `Email` with `Name`, `Enabled` and `SMTPPort` set to
the empty string, `false` and `0` is encoded with all three members. -/
theorem zero_values_are_serialized_witness :
    ("enabled", JSON.bool false) ∈ zeroValued.marshal.members ∧
    ("name", JSON.str "") ∈ zeroValued.marshal.members ∧
    (∃ j, ("credentials", j) ∈ zeroValued.marshal.members ∧
      ("smtp_port", JSON.num 0) ∈ j.members) ∧
    zeroValued.marshal =
      JSON.obj [("name", JSON.str ""), ("enabled", JSON.bool false),
        ("credentials", JSON.obj [("smtp_port", JSON.num 0)])] := by
  obtain ⟨hEnabled, hName, _, hPort, _, _, _⟩ :=
    zero_values_are_serialized zeroValued { EmailCredentials.new with SMTPPort := some 0 }
  exact ⟨hEnabled rfl, hName rfl, hPort rfl rfl, rfl⟩

end Body

end management
